import Mathlib

/-!
Verification of the DANTON particle-transport core (danton.c) against its
natural-language specification.  The definitions below are shallow embeddings
of the C source: C doubles are modelled as real numbers (rationals where the
code only compares and adds), C ints as `Int`, fallible calls as `Option`.
-/

namespace Danton

/-! ## Physical and geometric constants (danton.c, `#define` block) -/

/-- The spherical Earth radius, in m (`EARTH_RADIUS`). -/
def EARTH_RADIUS : ℝ := 6371e3

/-- The radius of the geostationary orbit, in m (`GEO_ORBIT`). -/
def GEO_ORBIT : ℝ := 42164e3

/-- `FLT_EPSILON` of C99 `<float.h>`, i.e. 2^(-23), as an exact rational. -/
def FLT_EPSILON : ℚ := 1 / 8388608

/-! ## Particle tables (`danton_particle_pdg`, `danton_particle_index`)

The `enum danton_particle` values come from the header `danton.h`, which is
not part of the provided sources.  Modelled from the spec: the particle table
index is a small enum `UNKNOWN = -1, NU_BAR_TAU, NU_BAR_MU, NU_BAR_E, NU_E,
NU_MU, NU_TAU, TAU_BAR, TAU, N`, in the declaration order implied by the
`pdg[]` table of `danton_particle_pdg` and by the loop bound
`DANTON_PARTICLE_N - 2` of `danton_sampler_update`.  The `ENT_PID_*`
constants of `ent.h` are the standard signed PDG codes (the spec's
"signed PDG-style particle code", CLI codes in {-12, 16, -16}). -/

def DANTON_PARTICLE_UNKNOWN : Int := -1

def DANTON_PARTICLE_N : Int := 8

def DANTON_PARTICLE_TAU_BAR : Nat := 6

def DANTON_PARTICLE_TAU : Nat := 7

/-- The `pdg[DANTON_PARTICLE_N]` table of `danton_particle_pdg`. -/
def pdgTable : List Int := [-16, -14, -12, 12, 14, 16, -15, 15]

/-- The PDG codes supported by `danton_particle_index`. -/
def supportedPdg : List Int := [-16, -14, -12, 12, 14, 16, -15, 15]

/-- `danton_particle_pdg`: table lookup guarded by the index range. -/
def danton_particle_pdg (index : Int) : Int :=
  if index < 0 ∨ DANTON_PARTICLE_N ≤ index then 0
  else pdgTable.getD index.toNat 0

/-- `danton_particle_index`: the nested `if` cascade of the C source. -/
def danton_particle_index (pdg : Int) : Int :=
  if 0 < pdg then
    if pdg = 12 then 3
    else if pdg = 14 then 4
    else if pdg = 16 then 5
    else if pdg = 15 then 7
    else DANTON_PARTICLE_UNKNOWN
  else
    if pdg = -16 then 0
    else if pdg = -14 then 1
    else if pdg = -12 then 2
    else if pdg = -15 then 6
    else DANTON_PARTICLE_UNKNOWN

/-- C10: `danton_particle_pdg` and `danton_particle_index` are mutually
inverse on their valid ranges; an out-of-range index maps to 0 and an
unsupported PDG code maps to `DANTON_PARTICLE_UNKNOWN` (= -1). -/
theorem particle_pdg_index_inverse :
    (∀ i : Int, 0 ≤ i → i < DANTON_PARTICLE_N →
      danton_particle_index (danton_particle_pdg i) = i) ∧
    (∀ p : Int, p ∈ supportedPdg →
      danton_particle_pdg (danton_particle_index p) = p) ∧
    (∀ i : Int, i < 0 ∨ DANTON_PARTICLE_N ≤ i → danton_particle_pdg i = 0) ∧
    (∀ p : Int, p ∉ supportedPdg →
      danton_particle_index p = DANTON_PARTICLE_UNKNOWN) := by
  refine ⟨?_, ?_, ?_, ?_⟩
  · intro i h0 h8
    have h8' : i < 8 := h8
    interval_cases i <;> decide
  · intro p hp
    fin_cases hp <;> decide
  · intro i hi
    unfold danton_particle_pdg
    rw [if_pos hi]
  · intro p hp
    simp only [supportedPdg, List.mem_cons, List.not_mem_nil, or_false] at hp
    push_neg at hp
    obtain ⟨h1, h2, h3, h4, h5, h6, h7, h8⟩ := hp
    unfold danton_particle_index
    split_ifs <;> simp_all

/-- Witness for C10: concrete round trips and the out-of-range defaults. -/
theorem particle_pdg_index_inverse_witness :
    danton_particle_index (danton_particle_pdg 3) = 3 ∧
    danton_particle_pdg (danton_particle_index 12) = 12 ∧
    danton_particle_pdg (-1) = 0 ∧
    danton_particle_index 11 = DANTON_PARTICLE_UNKNOWN :=
  ⟨particle_pdg_index_inverse.1 3 (by decide) (by decide),
   particle_pdg_index_inverse.2.1 12 (by decide),
   particle_pdg_index_inverse.2.2.1 (-1) (Or.inl (by decide)),
   particle_pdg_index_inverse.2.2.2 11 (by decide)⟩

/-! ## Event sampler (`struct danton_sampler`, `danton_sampler_update`)

The C doubles of the sampler are modelled as rationals: `danton_sampler_update`
only compares, adds and selects them, so the embedding is exact. -/

/-- The public sampler fields (`struct danton_sampler`): `altitude[2]`,
`cos_theta[2]`, `elevation[2]`, `energy[2]` and the per-particle-kind
`weight[DANTON_PARTICLE_N]` vector (a list read by index). -/
structure DantonSampler where
  altitude0 : ℚ
  altitude1 : ℚ
  cos_theta0 : ℚ
  cos_theta1 : ℚ
  elevation0 : ℚ
  elevation1 : ℚ
  energy0 : ℚ
  energy1 : ℚ
  weight : List ℚ
deriving DecidableEq

/-- The private sampler (`struct event_sampler`): the public fields plus the
derived neutrino-sum weight, total weight and integrity hash. -/
structure EventSampler where
  api : DantonSampler
  neutrino_weight : ℚ
  total_weight : ℚ
  sampler_hash : Nat
deriving DecidableEq

/-- The disjunction of range checks of `danton_sampler_update` (each
`fprintf` + `return EXIT_FAILURE` branch of the C source). -/
def sampler_invalid (s : DantonSampler) : Prop :=
  s.altitude0 < 0 ∨ s.altitude1 < s.altitude0 ∨
  s.cos_theta0 < 0 ∨ s.cos_theta1 < s.cos_theta0 ∨ 1 < s.cos_theta1 ∨
  s.elevation0 < -90 ∨ s.elevation1 < s.elevation0 ∨ 90 < s.elevation1 ∨
  s.energy0 < 100 ∨ s.energy1 < s.energy0 ∨ s.energy1 < 1000000000000

instance : DecidablePred sampler_invalid := fun s => by
  unfold sampler_invalid
  infer_instance

/-- The `(sampler->weight[i] <= 0.) ? 0. : sampler->weight[i]` guard. -/
def posw (x : ℚ) : ℚ := if x ≤ 0 then 0 else x

/-- `danton_sampler_update`: validate the ranges; on failure return `none`
(the C code returns `EXIT_FAILURE` leaving the sampler untouched); on success
compute the neutrino-sum and total weights and stamp the hash.  The byte-level
hash of the struct is abstracted as a function `hashFn` of the public
fields. -/
def danton_sampler_update (hashFn : DantonSampler → Nat) (s : EventSampler) :
    Option EventSampler :=
  if sampler_invalid s.api then none
  else
    let w : Nat → ℚ := fun i => s.api.weight.getD i 0
    let nw := (List.range 6).foldl (fun a i => a + posw (w i)) 0
    let tw1 := nw +
      (if 0 < w DANTON_PARTICLE_TAU_BAR then w DANTON_PARTICLE_TAU_BAR else 0)
    let tw := tw1 +
      (if 0 < w DANTON_PARTICLE_TAU then w DANTON_PARTICLE_TAU else 0)
    some ⟨s.api, nw, tw, hashFn s.api⟩

theorem posw_eq_max (x : ℚ) : posw x = max x 0 := by
  unfold posw
  rcases le_or_lt x 0 with h | h
  · rw [if_pos h, max_eq_right h]
  · rw [if_neg (not_le.mpr h), max_eq_left h.le]

theorem pos_if_eq_max (x : ℚ) : (if 0 < x then x else 0) = max x 0 := by
  rcases le_or_lt x 0 with h | h
  · rw [if_neg (not_lt.mpr h), max_eq_right h]
  · rw [if_pos h, max_eq_left h.le]

/-- C4: `danton_sampler_update` fails (with no new hash stamped) exactly when
one of the listed range conditions is violated; on success it computes the
neutrino-sum and total weights from the positive parts of the per-kind
weights, stamps the hash of the (unchanged) public fields, and succeeds. -/
theorem sampler_update_spec (hashFn : DantonSampler → Nat) (s : EventSampler) :
    (danton_sampler_update hashFn s = none ↔
      (s.api.altitude0 < 0 ∨ s.api.altitude1 < s.api.altitude0 ∨
       s.api.cos_theta0 < 0 ∨ s.api.cos_theta1 < s.api.cos_theta0 ∨
       1 < s.api.cos_theta1 ∨
       s.api.elevation0 < -90 ∨ s.api.elevation1 < s.api.elevation0 ∨
       90 < s.api.elevation1 ∨
       s.api.energy0 < 100 ∨ s.api.energy1 < s.api.energy0 ∨
       s.api.energy1 < 1000000000000)) ∧
    (∀ t, danton_sampler_update hashFn s = some t →
      t.api = s.api ∧
      t.neutrino_weight =
        max (s.api.weight.getD 0 0) 0 + max (s.api.weight.getD 1 0) 0 +
        max (s.api.weight.getD 2 0) 0 + max (s.api.weight.getD 3 0) 0 +
        max (s.api.weight.getD 4 0) 0 + max (s.api.weight.getD 5 0) 0 ∧
      t.total_weight = t.neutrino_weight +
        max (s.api.weight.getD 6 0) 0 + max (s.api.weight.getD 7 0) 0 ∧
      t.sampler_hash = hashFn s.api) := by
  constructor
  · unfold danton_sampler_update
    by_cases h : sampler_invalid s.api
    · rw [if_pos h]
      exact ⟨fun _ => h, fun _ => rfl⟩
    · rw [if_neg h]
      exact ⟨fun hc => absurd hc (by simp), fun hc => absurd hc h⟩
  · intro t ht
    unfold danton_sampler_update at ht
    by_cases h : sampler_invalid s.api
    · rw [if_pos h] at ht
      exact absurd ht (by simp)
    · rw [if_neg h] at ht
      simp only [Option.some.injEq] at ht
      subst ht
      refine ⟨rfl, ?_, ?_, rfl⟩
      · show (List.range 6).foldl
          (fun a i => a + posw (s.api.weight.getD i 0)) 0 = _
        have hr : List.range 6 = [0, 1, 2, 3, 4, 5] := rfl
        rw [hr]
        simp only [List.foldl_cons, List.foldl_nil, posw_eq_max]
        ring
      · show _ + (if 0 < s.api.weight.getD DANTON_PARTICLE_TAU_BAR 0 then _
            else 0) + (if 0 < s.api.weight.getD DANTON_PARTICLE_TAU 0 then _
            else 0) = _
        rw [pos_if_eq_max, pos_if_eq_max]
        rfl

/-- A concrete valid sampler used by the C4 witness. -/
def sampler_wit : EventSampler :=
  ⟨⟨0, 0, 0, 1, -90, 90, 100, 1000000000000, [1, -1, 0, 2, 0, 0, 3, -4]⟩,
   0, 0, 0⟩

/-- Witness for C4: the specification instantiated on a concrete sampler. -/
theorem sampler_update_spec_witness :
    (danton_sampler_update (fun _ => 5) sampler_wit = none ↔
      (sampler_wit.api.altitude0 < 0 ∨
       sampler_wit.api.altitude1 < sampler_wit.api.altitude0 ∨
       sampler_wit.api.cos_theta0 < 0 ∨
       sampler_wit.api.cos_theta1 < sampler_wit.api.cos_theta0 ∨
       1 < sampler_wit.api.cos_theta1 ∨
       sampler_wit.api.elevation0 < -90 ∨
       sampler_wit.api.elevation1 < sampler_wit.api.elevation0 ∨
       90 < sampler_wit.api.elevation1 ∨
       sampler_wit.api.energy0 < 100 ∨
       sampler_wit.api.energy1 < sampler_wit.api.energy0 ∨
       sampler_wit.api.energy1 < 1000000000000)) ∧
    (∀ t, danton_sampler_update (fun _ => 5) sampler_wit = some t →
      t.api = sampler_wit.api ∧
      t.neutrino_weight =
        max (sampler_wit.api.weight.getD 0 0) 0 +
        max (sampler_wit.api.weight.getD 1 0) 0 +
        max (sampler_wit.api.weight.getD 2 0) 0 +
        max (sampler_wit.api.weight.getD 3 0) 0 +
        max (sampler_wit.api.weight.getD 4 0) 0 +
        max (sampler_wit.api.weight.getD 5 0) 0 ∧
      t.total_weight = t.neutrino_weight +
        max (sampler_wit.api.weight.getD 6 0) 0 +
        max (sampler_wit.api.weight.getD 7 0) 0 ∧
      t.sampler_hash = 5) :=
  sampler_update_spec (fun _ => 5) sampler_wit

/-! ## Integrity hash (`hash`, `danton_run` guard)

`hash` is Bernstein's djb2 applied to the raw bytes of the sampler struct;
being a C string hash it stops at the first zero byte.  Bytes are modelled as
naturals below 256, `unsigned long` arithmetic as arithmetic modulo 2^64. -/

/-- One djb2 step: `hash = hash * 33 + c` in `unsigned long` arithmetic. -/
def djb2_step (h c : Nat) : Nat := (h * 33 + c) % (2 ^ 64)

/-- The `hash` function of danton.c: fold djb2 over the bytes read up to
(and excluding) the first zero byte, starting from 5381. -/
def djb2 (bytes : List Nat) : Nat :=
  (bytes.takeWhile (fun c => c != 0)).foldl djb2_step 5381

/-- The run-time integrity check of `danton_run`: the run proceeds only if
the stored hash equals the recomputed hash of the sampler bytes. -/
def danton_run_hash_ok (stored : Nat) (bytes : List Nat) : Bool :=
  stored == djb2 bytes

/-- A 128-byte image of a sampler whose `altitude[0]` is `0.0` (its first
byte is zero under IEEE-754, whatever the endianness). -/
def sampler_bytes_a : List Nat := 0 :: List.replicate 127 7

/-- The same image after a later field was mutated (second byte differs). -/
def sampler_bytes_b : List Nat := 0 :: 9 :: List.replicate 126 7

/-- Counterexample for C5: two distinct sampler byte images share the djb2
hash (the hash reads nothing past the first zero byte, and a sampler with
`altitude[0] = 0.0` starts with a zero byte), so `danton_run` accepts the
mutated sampler: not every field mutation is detected. -/
theorem hash_collision_counterexample :
    sampler_bytes_a ≠ sampler_bytes_b ∧
    djb2 sampler_bytes_a = djb2 sampler_bytes_b ∧
    danton_run_hash_ok (djb2 sampler_bytes_a) sampler_bytes_b = true := by
  decide

/-- C5 (amended): after a successful update the stored hash equals the djb2
hash of the sampler bytes, and `danton_run` proceeds exactly when the stored
hash equals the recomputed one; but djb2 ignores every byte after the first
zero byte (any image starting with a zero byte hashes to 5381), so mutations
located there are not detected. -/
theorem hash_guard_spec (stored : Nat) (bytes : List Nat)
    (bytesFn : DantonSampler → List Nat) (s t : EventSampler) :
    (danton_run_hash_ok stored bytes = true ↔ stored = djb2 bytes) ∧
    (danton_sampler_update (fun a => djb2 (bytesFn a)) s = some t →
      t.sampler_hash = djb2 (bytesFn t.api)) ∧
    djb2 (0 :: bytes) = 5381 := by
  refine ⟨?_, ?_, ?_⟩
  · unfold danton_run_hash_ok
    exact beq_iff_eq
  · intro ht
    have h := (sampler_update_spec (fun a => djb2 (bytesFn a)) s).2 t ht
    rw [h.2.2.2, h.1]
  · unfold djb2
    simp [List.takeWhile]

/-- Witness for C5 (amended) at concrete values. -/
theorem hash_guard_spec_witness :
    (danton_run_hash_ok 5381 [] = true ↔ 5381 = djb2 []) ∧
    (danton_sampler_update (fun a => djb2 ((fun _ => [1, 2]) a)) sampler_wit =
        some sampler_wit →
      sampler_wit.sampler_hash = djb2 [1, 2]) ∧
    djb2 (0 :: []) = 5381 :=
  hash_guard_spec 5381 [] (fun _ => [1, 2]) sampler_wit sampler_wit

/-! ## Output records (`format_*` helpers of danton.c)

Emission is modelled as a list of tagged records: `format_ancestor` emits one
ancestor line, `format_tau` a production/decay pair, `format_neutrino` one
neutrino line and `format_decay_product` one daughter line. -/

/-- One output record of the text formatter. -/
inductive OutputRecord
  | ancestor
  | tauPair (pid : Int)
  | neutrinoLine
  | productLine (pid : Int)
deriving DecidableEq

/-- The transport events of the neutrino engine used by danton.c.  Modelled
from the spec (`ent.h` is external): the code only distinguishes `EXIT`,
`DECAY_TAU` and the rest. -/
inductive EntEvent
  | evNone
  | evExit
  | evDecayTau
deriving DecidableEq

/-- Loop control of the `for (;;)` transport loop in `transport_forward`. -/
inductive LoopCtl
  | breakLoop
  | continueLoop
  | fallThrough
deriving DecidableEq

/-- Result of one pass through the post-`ent_transport` checks of
`transport_forward`: loop control, the records emitted, the updated
flux-crossing triad and the updated `primary_dumped` latch. -/
structure FluxStepOut where
  ctl : LoopCtl
  recs : List OutputRecord
  is_inside : Int
  has_crossed : Int
  cross_count : Int
  primary_dumped : Bool
deriving DecidableEq

/-- The energy-cut, flux-crossing and exit checks at the head of the
`transport_forward` loop (directly after `ent_transport`): kill the track at
the cut; in neutrino-flux mode, on an exit with the crossing flag raised,
count the crossing, emit (ancestor if needed, then the neutrino) and stop on
the second crossing, otherwise re-arm and restart the loop; any other exit
stops the track. -/
def forward_exit_check (fluxNeutrino : Bool) (event : EntEvent)
    (energy ecut : ℚ) (pd : Bool) (ii hc cc : Int) : FluxStepOut :=
  if energy ≤ ecut + FLT_EPSILON then ⟨.breakLoop, [], ii, hc, cc, pd⟩
  else if fluxNeutrino = true ∧ event = .evExit ∧ hc ≠ 0 then
    if cc + 1 = 2 then
      ⟨.breakLoop, (if pd then [] else [OutputRecord.ancestor]) ++
        [OutputRecord.neutrinoLine], ii, hc, cc + 1, true⟩
    else ⟨.continueLoop, [], -1, 0, cc + 1, pd⟩
  else if event = .evExit then ⟨.breakLoop, [], ii, hc, cc, pd⟩
  else ⟨.fallThrough, [], ii, hc, cc, pd⟩

/-- C1: in forward flux mode, an exit with the flux boundary crossed
increments `cross_count`; the track emits (ancestor line if not yet dumped,
then one neutrino line) and ends if and only if the count then equals 2; on
the first crossing the state is re-armed (`is_inside = -1`,
`has_crossed = 0`), nothing is emitted, and the loop continues — so exactly
one flux emission occurs per second crossing of the detection sphere. -/
theorem forward_flux_second_crossing (energy ecut : ℚ) (pd : Bool)
    (ii cc : Int) (henergy : ecut + FLT_EPSILON < energy) :
    (forward_exit_check true .evExit energy ecut pd ii 1 cc).cross_count =
      cc + 1 ∧
    ((forward_exit_check true .evExit energy ecut pd ii 1 cc).ctl =
      .breakLoop ↔ cc + 1 = 2) ∧
    ((forward_exit_check true .evExit energy ecut pd ii 1 cc).recs ≠ [] ↔
      cc + 1 = 2) ∧
    (cc + 1 = 2 →
      (forward_exit_check true .evExit energy ecut pd ii 1 cc).recs =
        (if pd then [] else [OutputRecord.ancestor]) ++
          [OutputRecord.neutrinoLine] ∧
      (forward_exit_check true .evExit energy ecut pd ii 1 cc).primary_dumped =
        true) ∧
    (cc + 1 ≠ 2 →
      (forward_exit_check true .evExit energy ecut pd ii 1 cc).ctl =
        .continueLoop ∧
      (forward_exit_check true .evExit energy ecut pd ii 1 cc).is_inside =
        -1 ∧
      (forward_exit_check true .evExit energy ecut pd ii 1 cc).has_crossed =
        0 ∧
      (forward_exit_check true .evExit energy ecut pd ii 1 cc).recs = []) := by
  unfold forward_exit_check
  rw [if_neg (not_le.mpr henergy), if_pos ⟨rfl, rfl, by decide⟩]
  by_cases h2 : cc + 1 = 2
  · rw [if_pos h2]
    refine ⟨rfl, ⟨fun _ => h2, fun _ => rfl⟩, ⟨fun _ => h2, fun _ => ?_⟩,
      fun _ => ⟨rfl, rfl⟩, fun hn => absurd h2 hn⟩
    cases pd <;> simp
  · rw [if_neg h2]
    refine ⟨rfl, ?_, ?_, fun h => absurd h h2, fun _ => ⟨rfl, rfl, rfl, rfl⟩⟩
    · exact ⟨fun h => (nomatch h), fun h => absurd h h2⟩
    · exact ⟨fun h => absurd rfl h, fun h => absurd h h2⟩

/-- Witness for C1: a second crossing at concrete values. -/
theorem forward_flux_second_crossing_witness :
    (forward_exit_check true .evExit 1 0 false 0 1 1).cross_count = 1 + 1 ∧
    ((forward_exit_check true .evExit 1 0 false 0 1 1).ctl = .breakLoop ↔
      (1 : Int) + 1 = 2) ∧
    ((forward_exit_check true .evExit 1 0 false 0 1 1).recs ≠ [] ↔
      (1 : Int) + 1 = 2) ∧
    ((1 : Int) + 1 = 2 →
      (forward_exit_check true .evExit 1 0 false 0 1 1).recs =
        (if false then [] else [OutputRecord.ancestor]) ++
          [OutputRecord.neutrinoLine] ∧
      (forward_exit_check true .evExit 1 0 false 0 1 1).primary_dumped =
        true) ∧
    ((1 : Int) + 1 ≠ 2 →
      (forward_exit_check true .evExit 1 0 false 0 1 1).ctl =
        .continueLoop ∧
      (forward_exit_check true .evExit 1 0 false 0 1 1).is_inside = -1 ∧
      (forward_exit_check true .evExit 1 0 false 0 1 1).has_crossed = 0 ∧
      (forward_exit_check true .evExit 1 0 false 0 1 1).recs = []) :=
  forward_flux_second_crossing 1 0 false 0 1 (by norm_num [FLT_EPSILON])

/-! ## Tau-decay daughter processing (`transport_forward` / `transport_backward`) -/

/-- Accumulator of the daughter loop of `transport_forward`: records emitted
so far, the `primary_dumped` latch, the `nprod` counter and the captured
next-generation neutrino daughters. -/
structure DaughterState where
  recs : List OutputRecord
  pd : Bool
  nprod : Nat
  nu_t : Option Int
  nu_e : Option Int
deriving DecidableEq

/-- One iteration of the `while (alouette_product ...)` loop of
`transport_forward`: nu_tau daughters and anti-nu_e daughters are captured
for recursion; nu_e, muons and nu_mu (or everything outside decay mode) are
dropped; other daughters are logged only when the cached medium index is at
least 10 (an atmosphere shell), emitting the ancestor and tau lines first
when this is the first logged product. -/
def forward_daughter_step (decay : Bool) (medium tauPid : Int)
    (st : DaughterState) (pid : Int) : DaughterState :=
  if pid.natAbs = 16 then ⟨st.recs, st.pd, st.nprod, some pid, st.nu_e⟩
  else if pid = -12 then ⟨st.recs, st.pd, st.nprod, st.nu_t, some pid⟩
  else if decay = false ∨ pid = 12 ∨ pid.natAbs = 13 ∨ pid.natAbs = 14 then st
  else if medium < 10 then st
  else
    let recs1 :=
      if st.nprod = 0 then
        st.recs ++ (if st.pd then [] else [OutputRecord.ancestor]) ++
          [OutputRecord.tauPair tauPid]
      else st.recs
    let pd1 := if st.nprod = 0 then true else st.pd
    ⟨recs1 ++ [OutputRecord.productLine pid], pd1, st.nprod + 1,
      st.nu_t, st.nu_e⟩

/-- The daughter loop of `transport_forward` over the staged decay
products. -/
def forward_daughter_loop (decay : Bool) (medium tauPid : Int) (pd : Bool)
    (products : List Int) : DaughterState :=
  products.foldl (forward_daughter_step decay medium tauPid)
    ⟨[], pd, 0, none, none⟩

/-- One iteration of the decay-product loop at the end of
`transport_backward`: the C test reads `abs(pid1 == 12)`, so exactly
`pid1 = 12` and `|pid1| ∈ {13, 14, 16}` are skipped; every other daughter is
logged, with the ancestor and tau lines emitted before the first one.  No
medium condition appears. -/
def backward_daughter_step (tauPid : Int) (st : List OutputRecord × Nat)
    (pid1 : Int) : List OutputRecord × Nat :=
  if pid1 = 12 ∨ pid1.natAbs = 13 ∨ pid1.natAbs = 14 ∨ pid1.natAbs = 16 then
    st
  else
    let recs1 :=
      if st.2 = 0 then
        st.1 ++ [OutputRecord.ancestor, OutputRecord.tauPair tauPid]
      else st.1
    (recs1 ++ [OutputRecord.productLine pid1], st.2 + 1)

/-- The decay-product loop of `transport_backward` (decay mode). -/
def backward_daughter_loop (tauPid : Int) (products : List Int) :
    List OutputRecord :=
  (products.foldl (backward_daughter_step tauPid) ([], 0)).1

/-- C2: in forward transport a non-neutrino tau-decay daughter (anything but
nu_tau, anti-nu_e, nu_e, mu, nu_mu) is written as a decay-product record if
and only if the cached medium index is at least 10 (decay in an atmosphere
shell); the backward decay path logs the same daughter with no medium
condition at all (its loop does not even read a medium index). -/
theorem decay_product_air_condition (pid medium tauPid : Int) (pd : Bool)
    (h12 : pid ≠ 12) (h12b : pid ≠ -12) (h13 : pid.natAbs ≠ 13)
    (h14 : pid.natAbs ≠ 14) (h16 : pid.natAbs ≠ 16) :
    (OutputRecord.productLine pid ∈
        (forward_daughter_loop true medium tauPid pd [pid]).recs ↔
      10 ≤ medium) ∧
    OutputRecord.productLine pid ∈ backward_daughter_loop tauPid [pid] := by
  constructor
  · show OutputRecord.productLine pid ∈
      (forward_daughter_step true medium tauPid ⟨[], pd, 0, none, none⟩
        pid).recs ↔ 10 ≤ medium
    unfold forward_daughter_step
    rw [if_neg h16, if_neg h12b,
      if_neg (by simp [h12, h13, h14])]
    by_cases hm : medium < 10
    · rw [if_pos hm]
      simp only [List.not_mem_nil, false_iff]
      omega
    · rw [if_neg hm]
      constructor
      · intro _
        omega
      · intro _
        simp
  · show OutputRecord.productLine pid ∈
      (backward_daughter_step tauPid ([], 0) pid).1
    unfold backward_daughter_step
    rw [if_neg (by simp [h12, h13, h14, h16])]
    simp

/-- Witness for C2: a charged pion daughter at the atmosphere boundary. -/
theorem decay_product_air_condition_witness :
    (OutputRecord.productLine 211 ∈
        (forward_daughter_loop true 10 15 false [211]).recs ↔
      (10 : Int) ≤ 10) ∧
    OutputRecord.productLine 211 ∈ backward_daughter_loop 15 [211] :=
  decay_product_air_condition 211 10 15 false (by decide) (by decide)
    (by decide) (by decide) (by decide)

/-! ## Tau-decay retries (`alouette_decay` retry loop) -/

/-- Number of `alouette_decay` invocations made by the retry loop
`for (trials = 0; trials < 20; trials++)`, given which attempts would
succeed: one more than the index of the first success, else 20. -/
def decay_trials (succ : Nat → Bool) : Nat :=
  match (List.range 20).find? (fun k => succ k) with
  | some k => k + 1
  | none => 20

/-- C8: the decay engine is invoked at most 20 times per tau decay; after 20
consecutive failures all 20 attempts were spent and, the engine having staged
no products, the daughter loop emits nothing — `transport_forward` is total
here and simply proceeds, so no error reaches the caller. -/
theorem decay_retry_spec (succ : Nat → Bool) (decay : Bool)
    (medium tauPid : Int) (pd : Bool) :
    decay_trials succ ≤ 20 ∧
    ((∀ k, k < 20 → succ k = false) → decay_trials succ = 20) ∧
    (forward_daughter_loop decay medium tauPid pd []).recs = [] ∧
    (forward_daughter_loop decay medium tauPid pd []).nprod = 0 := by
  refine ⟨?_, ?_, rfl, rfl⟩
  · unfold decay_trials
    cases h : (List.range 20).find? (fun k => succ k) with
    | none => exact le_refl 20
    | some k =>
      have hk : k ∈ List.range 20 := List.mem_of_find?_eq_some h
      have hk2 := List.mem_range.mp hk
      show k + 1 ≤ 20
      omega
  · intro hall
    unfold decay_trials
    rw [List.find?_eq_none.mpr]
    intro x hx
    rw [hall x (List.mem_range.mp hx)]
    decide

/-- Witness for C8: the all-failures oracle. -/
theorem decay_retry_spec_witness :
    decay_trials (fun _ => false) ≤ 20 ∧
    ((∀ k, k < 20 → (fun _ => false) k = false) →
      decay_trials (fun _ => false) = 20) ∧
    (forward_daughter_loop true 10 15 false []).recs = [] ∧
    (forward_daughter_loop true 10 15 false []).nprod = 0 :=
  decay_retry_spec (fun _ => false) true 10 15 false

/-! ## Primary sampling (`sample_log_or_linear`, forward run loop)

The draws use `log`/`exp`, so the embedding lives in ℝ; the uniform random
number `u ∈ [0,1]` is passed as an argument. -/

/-- `sample_log_or_linear`: when the endpoints share a sign, a log-uniform
draw weighted by `|ln(x1/x0)| * xi`; otherwise a linear draw weighted by
`x1 - x0`; when `x0 >= x1` the first endpoint is returned and the weight is
left unchanged.  Returns (sample, updated weight). -/
noncomputable def sample_log_or_linear (u x0 x1 w : ℝ) : ℝ × ℝ :=
  if x0 < x1 then
    if 0 < x0 ∨ x1 < 0 then
      let r := Real.log (x1 / x0)
      let xi := x0 * Real.exp (r * u)
      (xi, w * (|r| * xi))
    else
      (x0 + (x1 - x0) * u, w * (x1 - x0))
  else (x0, w)

/-- The energy draw of the forward run loop of `danton_run`: start from
weight 1, sample the energy, then apply the spectral re-weighting factor
`E1 * E0 / ((E1 - E0) * E^2)` only when the energy window is non-trivial. -/
noncomputable def forward_primary_energy (u e0 e1 : ℝ) : ℝ × ℝ :=
  let p := sample_log_or_linear u e0 e1 1
  if e0 < e1 then (p.1, p.2 * (e1 * e0 / ((e1 - e0) * (p.1 * p.1))))
  else p

/-- C9: with equal energy bounds the log-or-linear draw returns exactly that
endpoint with the weight factor unchanged, and the forward run loop then
skips its spectral re-weighting, so every primary carries energy `E_min` and
weight 1. -/
theorem monokinetic_spec (u e0 e1 w : ℝ) (h : e0 = e1) :
    sample_log_or_linear u e0 e1 w = (e0, w) ∧
    forward_primary_energy u e0 e1 = (e0, 1) := by
  subst h
  constructor
  · unfold sample_log_or_linear
    rw [if_neg (lt_irrefl e0)]
  · unfold forward_primary_energy sample_log_or_linear
    rw [if_neg (lt_irrefl e0), if_neg (lt_irrefl e0)]

/-- Witness for C9: a monokinetic 10^12 GeV beam. -/
theorem monokinetic_spec_witness :
    sample_log_or_linear (1 / 2) 1e12 1e12 3 = (1e12, 3) ∧
    forward_primary_energy (1 / 2) 1e12 1e12 = (1e12, 1) :=
  monokinetic_spec (1 / 2) 1e12 1e12 3 rfl

/-! ## Backward decay-probability weight (`transport_backward`, tau entry)

`tau_mass` and `tau_ctau0` are loaded at run time from the lepton engine, so
they are parameters of the embedding. -/

/-- The weight update at the head of `transport_backward` when the current
state is a tau: the code multiplies the weight by
`tau_mass / (tau_ctau0 * |p|)`, with `|p| = sqrt(K * (K + 2 * tau_mass))`,
but only under `context->api.decay || (generation > 1)`. -/
noncomputable def backward_tau_weight (m ct : ℝ) (decay : Bool)
    (generation : Int) (kinetic w : ℝ) : ℝ :=
  if decay = true ∨ 1 < generation then
    w * (m / (ct * Real.sqrt (kinetic * (kinetic + 2 * m))))
  else w

/-- Counterexample for C3: the claim says the weight is multiplied by
`m / (ct * |p|)` whenever the routine is entered with a tau, but in flux mode
(`decay = false`) at generation 1 the code leaves the weight unchanged.
Concretely with `m = 8/3`, `ct = 1`, `K = 3` (so `|p| = 5`) and `w = 1` the
code returns 1, not `8/15`. -/
theorem backward_weight_counterexample :
    backward_tau_weight (8 / 3) 1 false 1 3 1 ≠
      1 * ((8 / 3) / (1 * Real.sqrt (3 * (3 + 2 * (8 / 3))))) := by
  have h5 : Real.sqrt (3 * (3 + 2 * (8 / 3 : ℝ))) = 5 := by
    rw [show (3 : ℝ) * (3 + 2 * (8 / 3)) = 5 ^ 2 by norm_num]
    exact Real.sqrt_sq (by norm_num)
  rw [h5]
  unfold backward_tau_weight
  rw [if_neg (by simp)]
  norm_num

/-- C3 (amended): on entry with a tau state the weight is multiplied by
`m_tau / (c tau0 * |p|)` exactly when in decay mode or at generation > 1; in
flux mode at generation 1 the weight is left unchanged. -/
theorem backward_weight_conditional (m ct kinetic w : ℝ) (decay : Bool)
    (generation : Int) :
    (decay = true ∨ 1 < generation →
      backward_tau_weight m ct decay generation kinetic w =
        w * (m / (ct * Real.sqrt (kinetic * (kinetic + 2 * m))))) ∧
    (decay = false ∧ generation ≤ 1 →
      backward_tau_weight m ct decay generation kinetic w = w) := by
  constructor
  · intro h
    unfold backward_tau_weight
    rw [if_pos h]
  · rintro ⟨h1, h2⟩
    unfold backward_tau_weight
    rw [if_neg]
    rintro (h3 | h3)
    · rw [h1] at h3
      exact Bool.false_ne_true h3
    · omega

/-- Witness for C3 (amended): both regimes at concrete values. -/
theorem backward_weight_conditional_witness :
    backward_tau_weight (8 / 3) 1 true 1 3 2 =
      2 * ((8 / 3) / (1 * Real.sqrt (3 * (3 + 2 * (8 / 3))))) ∧
    backward_tau_weight (8 / 3) 1 false 1 3 2 = 2 :=
  ⟨(backward_weight_conditional (8 / 3) 1 3 2 true 1).1 (Or.inl rfl),
   (backward_weight_conditional (8 / 3) 1 3 2 false 1).2 ⟨rfl, by norm_num⟩⟩

/-! ## Earth-model geometry (the generic `medium` callback)

The callback receives position and direction (Cartesian components) and the
stepping fields of `struct generic_state`; it writes the shell index into the
state and returns the suggested step length. -/

/-- The stepping fields of `struct generic_state` used by `medium`. -/
structure GState where
  medium : Int
  r : ℝ
  is_tau : Bool
  is_inside : Int
  has_crossed : Int
  cross_count : Int

/-- The `ri[16]` table of shell outer radii, in m. -/
noncomputable def riTable : List ℝ :=
  [1221.5e3, 3480e3, 5701e3, 5771e3, 5971e3, 6151e3, 6346.6e3, 6356e3,
   6368e3, EARTH_RADIUS, EARTH_RADIUS + 4e3, EARTH_RADIUS + 1e4,
   EARTH_RADIUS + 4e4, EARTH_RADIUS + 1e5, GEO_ORBIT, 2 * GEO_ORBIT]

/-- The final `if (step < 1E-03) step = 1E-03;` floor. -/
noncomputable def floorStep (x : ℝ) : ℝ := if x < 1e-3 then 1e-3 else x

/-- The raw step to the boundary of shell `rsh`: the outgoing root, replaced
by the incoming root to the lower shell `prev` when the trajectory is
downgoing (`b < 0`) and the incoming radicand is positive. -/
noncomputable def rawStep (r b : ℝ) (prev : Option ℝ) (rsh : ℝ) : ℝ :=
  let d2 := b * b + rsh * rsh - r * r
  let step0 := (if d2 ≤ 0 then 0 else Real.sqrt d2) - b
  match prev with
  | none => step0
  | some r1 =>
    if b < 0 then
      let e2 := b * b + r1 * r1 - r * r
      if 0 < e2 then
        let si := -b - Real.sqrt e2
        if 0 < si ∧ si < step0 then si else step0
      else step0
    else step0

/-- The step suggested for a shell: the raw step floored at 10^-3 m. -/
noncomputable def shellStep (r b : ℝ) (prev : Option ℝ) (rsh : ℝ) : ℝ :=
  floorStep (rawStep r b prev rsh)

/-- The `for (i = 0; ...)` shell search of `medium`: find the first shell
with `r <= ri[i]`, return its index and step; `(-1, 0)` if none is found. -/
noncomputable def findShellAux (r b : ℝ) (prev : Option ℝ) (idx : Int) :
    List ℝ → Int × ℝ
  | [] => (-1, 0)
  | rsh :: rest =>
    if r ≤ rsh then (idx, shellStep r b prev rsh)
    else findShellAux r b (some rsh) (idx + 1) rest

/-- The tail of the `medium` callback after the radius and flux checks: kill
neutrinos above `ri[13]` (the atmosphere top), otherwise search the first 15
shells (the loop bound excludes the last table entry). -/
noncomputable def mediumRest (px py pz dx dy dz : ℝ) (s : GState) :
    ℝ × GState :=
  if s.is_tau = false ∧ riTable.getD 13 0 < s.r then (0, s)
  else
    ((findShellAux s.r (px * dx + py * dy + pz * dz) none 0
        (riTable.take 15)).2,
     ⟨(findShellAux s.r (px * dx + py * dy + pz * dz) none 0
        (riTable.take 15)).1,
      s.r, s.is_tau, s.is_inside, s.has_crossed, s.cross_count⟩)

/-- The generic `medium` callback: reset the medium index to -1; exit beyond
the geostationary radius; update the radius cache; in forward flux mode
(`!decay`, crossing armed) classify `is_inside` on first use or return step 0
with `has_crossed = 1` on a boundary crossing; then delegate to the
atmosphere check and shell search. -/
noncomputable def mediumOp (decay : Bool) (alt0 px py pz dx dy dz : ℝ)
    (s : GState) : ℝ × GState :=
  if GEO_ORBIT * GEO_ORBIT < px * px + py * py + pz * pz then
    (0, ⟨-1, s.r, s.is_tau, s.is_inside, s.has_crossed, s.cross_count⟩)
  else if decay = false ∧ 0 ≤ s.has_crossed then
    if s.is_inside < 0 then
      mediumRest px py pz dx dy dz
        ⟨-1, Real.sqrt (px * px + py * py + pz * pz), s.is_tau,
         (if Real.sqrt (px * px + py * py + pz * pz) < EARTH_RADIUS + alt0
          then 1 else 0), s.has_crossed, s.cross_count⟩
    else if (s.is_inside ≠ 0 ∧
          EARTH_RADIUS + alt0 ≤ Real.sqrt (px * px + py * py + pz * pz)) ∨
        (s.is_inside = 0 ∧
          Real.sqrt (px * px + py * py + pz * pz) ≤ EARTH_RADIUS + alt0) then
      (0, ⟨-1, Real.sqrt (px * px + py * py + pz * pz), s.is_tau,
        s.is_inside, 1, s.cross_count⟩)
    else
      mediumRest px py pz dx dy dz
        ⟨-1, Real.sqrt (px * px + py * py + pz * pz), s.is_tau, s.is_inside,
         s.has_crossed, s.cross_count⟩
  else
    mediumRest px py pz dx dy dz
      ⟨-1, Real.sqrt (px * px + py * py + pz * pz), s.is_tau, s.is_inside,
       s.has_crossed, s.cross_count⟩

theorem floorStep_ge (x : ℝ) : (1e-3 : ℝ) ≤ floorStep x := by
  unfold floorStep
  split_ifs with h
  · exact le_refl _
  · exact le_of_not_lt h

theorem findShellAux_spec (r b : ℝ) (l : List ℝ) :
    ∀ (prev : Option ℝ) (idx : Int), 0 ≤ idx →
      findShellAux r b prev idx l = (-1, 0) ∨
      (0 ≤ (findShellAux r b prev idx l).1 ∧
        (1e-3 : ℝ) ≤ (findShellAux r b prev idx l).2) := by
  induction l with
  | nil =>
    intro prev idx _
    exact Or.inl rfl
  | cons rsh rest ih =>
    intro prev idx hidx
    have heq : findShellAux r b prev idx (rsh :: rest) =
        if r ≤ rsh then (idx, shellStep r b prev rsh)
        else findShellAux r b (some rsh) (idx + 1) rest := rfl
    rw [heq]
    by_cases hr : r ≤ rsh
    · rw [if_pos hr]
      exact Or.inr ⟨hidx, floorStep_ge _⟩
    · rw [if_neg hr]
      exact ih (some rsh) (idx + 1) (by omega)

theorem mediumRest_spec (px py pz dx dy dz : ℝ) (s : GState)
    (hm : s.medium = -1) :
    (0 ≤ (mediumRest px py pz dx dy dz s).2.medium →
      (1e-3 : ℝ) ≤ (mediumRest px py pz dx dy dz s).1) ∧
    ((mediumRest px py pz dx dy dz s).1 = 0 ↔
      (mediumRest px py pz dx dy dz s).2.medium = -1) := by
  unfold mediumRest
  by_cases h : s.is_tau = false ∧ riTable.getD 13 0 < s.r
  · rw [if_pos h]
    refine ⟨fun hc => ?_, ⟨fun _ => hm, fun _ => rfl⟩⟩
    have hc2 : (0 : Int) ≤ s.medium := hc
    rw [hm] at hc2
    exact absurd hc2 (by decide)
  · rw [if_neg h]
    rcases findShellAux_spec s.r (px * dx + py * dy + pz * dz)
      (riTable.take 15) none 0 (le_refl 0) with hf | hf
    · rw [hf]
      exact ⟨fun hc => absurd (show (0 : Int) ≤ -1 from hc) (by decide),
        ⟨fun _ => rfl, fun _ => rfl⟩⟩
    · refine ⟨fun _ => hf.2, ⟨fun hz => ?_, fun hz => ?_⟩⟩
      · have hz2 : (findShellAux s.r (px * dx + py * dy + pz * dz) none 0
            (riTable.take 15)).2 = 0 := hz
        rw [hz2] at hf
        exact absurd hf.2 (by norm_num)
      · have hz2 : (findShellAux s.r (px * dx + py * dy + pz * dz) none 0
            (riTable.take 15)).1 = -1 := hz
        rw [hz2] at hf
        exact absurd hf.1 (by decide)

/-- C6: the geometry medium operation returns a step of at least 10^-3 m
whenever it assigns a medium index >= 0, and it returns step 0 if and only
if it assigns medium index -1 (the outer-radius exit, the neutrino
atmosphere exit, the flux-crossing early return, and — vacuously — an
exhausted shell search all return the pair (0, -1)). -/
theorem medium_step_spec (decay : Bool) (alt0 px py pz dx dy dz : ℝ)
    (s : GState) :
    (0 ≤ (mediumOp decay alt0 px py pz dx dy dz s).2.medium →
      (1e-3 : ℝ) ≤ (mediumOp decay alt0 px py pz dx dy dz s).1) ∧
    ((mediumOp decay alt0 px py pz dx dy dz s).1 = 0 ↔
      (mediumOp decay alt0 px py pz dx dy dz s).2.medium = -1) := by
  unfold mediumOp
  by_cases h1 : GEO_ORBIT * GEO_ORBIT < px * px + py * py + pz * pz
  · rw [if_pos h1]
    exact ⟨fun hc => absurd (show (0 : Int) ≤ -1 from hc) (by decide),
      ⟨fun _ => rfl, fun _ => rfl⟩⟩
  · rw [if_neg h1]
    by_cases h2 : decay = false ∧ 0 ≤ s.has_crossed
    · rw [if_pos h2]
      by_cases h3 : s.is_inside < 0
      · rw [if_pos h3]
        apply mediumRest_spec
        rfl
      · rw [if_neg h3]
        by_cases h4 : (s.is_inside ≠ 0 ∧ EARTH_RADIUS + alt0 ≤
              Real.sqrt (px * px + py * py + pz * pz)) ∨
            (s.is_inside = 0 ∧ Real.sqrt (px * px + py * py + pz * pz) ≤
              EARTH_RADIUS + alt0)
        · rw [if_pos h4]
          exact ⟨fun hc => absurd (show (0 : Int) ≤ -1 from hc) (by decide),
            ⟨fun _ => rfl, fun _ => rfl⟩⟩
        · rw [if_neg h4]
          apply mediumRest_spec
          rfl
    · rw [if_neg h2]
      apply mediumRest_spec
      rfl

/-- Witness for C6: the specification instantiated at a concrete call. -/
theorem medium_step_spec_witness :
    (0 ≤ (mediumOp true 0 0 0 6300000 0 0 1
        ⟨-1, 0, true, -1, -1, 0⟩).2.medium →
      (1e-3 : ℝ) ≤ (mediumOp true 0 0 0 6300000 0 0 1
        ⟨-1, 0, true, -1, -1, 0⟩).1) ∧
    ((mediumOp true 0 0 0 6300000 0 0 1 ⟨-1, 0, true, -1, -1, 0⟩).1 = 0 ↔
      (mediumOp true 0 0 0 6300000 0 0 1
        ⟨-1, 0, true, -1, -1, 0⟩).2.medium = -1) :=
  medium_step_spec true 0 0 0 6300000 0 0 1 ⟨-1, 0, true, -1, -1, 0⟩

/-- Counterexample for C7: a tau state 1 m beyond the geostationary radius
(42164001 m, inside the claimed live band up to 2 * 42164 km) is returned as
an exit — step 0 and medium index -1 — not as a valid medium with a positive
step: the top radius check of `medium` kills everything beyond
`GEO_ORBIT`, and the 2 * 42164 km table entry is never consulted. -/
theorem medium_outer_bound_counterexample :
    (mediumOp true 0 0 0 42164001 0 0 1 ⟨-1, 0, true, -1, -1, 0⟩).1 = 0 ∧
    (mediumOp true 0 0 0 42164001 0 0 1
      ⟨-1, 0, true, -1, -1, 0⟩).2.medium = -1 := by
  unfold mediumOp
  rw [if_pos (by norm_num [GEO_ORBIT])]
  exact ⟨rfl, rfl⟩

/-- C7 (amended): transport terminates at the outer bound 42164 km: whenever
the squared radius exceeds `GEO_ORBIT^2` — in particular for any tau between
42164 km and 2 * 42164 km — the medium operation returns exit (step 0,
medium index -1) with the rest of the state unchanged. -/
theorem medium_outer_bound_exit (decay : Bool) (alt0 px py pz dx dy dz : ℝ)
    (s : GState)
    (h : GEO_ORBIT * GEO_ORBIT < px * px + py * py + pz * pz) :
    mediumOp decay alt0 px py pz dx dy dz s =
      (0, ⟨-1, s.r, s.is_tau, s.is_inside, s.has_crossed, s.cross_count⟩) := by
  unfold mediumOp
  rw [if_pos h]

/-- Witness for C7 (amended): a state at 50000 km exits. -/
theorem medium_outer_bound_exit_witness :
    mediumOp false 0 0 0 50000000 0 0 1 ⟨-1, 0, true, -1, -1, 0⟩ =
      (0, ⟨-1, 0, true, -1, -1, 0⟩) :=
  medium_outer_bound_exit false 0 0 0 50000000 0 0 1 ⟨-1, 0, true, -1, -1, 0⟩
    (by norm_num [GEO_ORBIT])

end Danton
